import Mathlib

open List

/-!
Formal model of the recommendation service (`recommendations_service.py`).

The three lookup tables are modelled as lists of typed rows.  Scores enter the
computation only through order comparisons, so they are modelled as integers.
Python list slicing `xs[:n]` and pandas `head(n)` (which agree, also for
negative `n`) are modelled by `pyTake`.  `sort_values(col, ascending=False)`
on a single column is modelled after pandas `nargsort`: the rows are reversed,
argsorted ascending, and the resulting order is reversed again.  The ascending
argsort is modelled as an insertion sort; pandas' default `kind='quicksort'`
(numpy introsort) guarantees no particular order within a group of equal keys,
and no theorem below depends on that order — every statement is invariant
under which permutation of equal-key rows the sort returns, and the concrete
tables evaluated below have no equal keys within a match group.  The Python
`set` objects used by the service (`seen`, `history_set`) are observed only
through membership tests, so they are modelled by lists with list membership.
-/

/-- A row of the personal table (`personal_als.parquet`). -/
structure PersonalRecommendation where
  user_id : String
  track_id : String
  score : Int
deriving DecidableEq

/-- A row of the similarity table (`similar.parquet`). -/
structure SimilarTrackEdge where
  track_id : String
  similar_track_id : String
  similarity_score : Int
deriving DecidableEq

/-- A row of the popularity table (`top_popular.parquet`), stored in
descending-popularity order. -/
structure PopularTrack where
  track_id : String
  popularity_score : Int
deriving DecidableEq

/-- The three read-only lookup tables held by `RecommendationEngine`. -/
structure RecommendationEngine where
  personal_recs : List PersonalRecommendation
  similar_tracks : List SimilarTrackEdge
  top_popular : List PopularTrack
deriving DecidableEq

variable {α : Type*} {β : Type*}

/-- Python slicing `xs[:n]` and pandas `DataFrame.head(n)`: a nonnegative `n`
keeps the first `n` elements, a negative `n` drops the last `|n|` elements. -/
def pyTake (n : Int) (xs : List α) : List α :=
  if 0 ≤ n then xs.take n.toNat else xs.take (xs.length - (-n).toNat)

/-- `sort_values(col, ascending=False)` on a single numeric column.  pandas
(`nargsort`) reverses the rows, computes an ascending argsort of the reversed
column, and reverses the resulting order again.  The argsort here is an
insertion sort; the program's default `kind='quicksort'` fixes no order within
equal keys, and no theorem in this file depends on that order. -/
def sort_values_desc (key : α → Int) (rows : List α) : List α :=
  (List.insertionSort (fun a b => key a ≤ key b) rows.reverse).reverse

/-- The rows of the personal table whose `user_id` matches (the boolean-mask
filter in `get_personal_recommendations`). -/
def personal_matches (e : RecommendationEngine) (user_id : String) :
    List PersonalRecommendation :=
  e.personal_recs.filter (fun row => row.user_id == user_id)

/-- `RecommendationEngine.get_personal_recommendations`: filter the personal
table to the user's rows, sort by score descending, and return the first `n`
track ids (an empty list when the user has no rows). -/
def get_personal_recommendations (e : RecommendationEngine) (user_id : String)
    (n : Int) : List String :=
  let user_recs := sort_values_desc (fun row => row.score) (personal_matches e user_id)
  if user_recs.length = 0 then []
  else (pyTake n user_recs).map (fun row => row.track_id)

/-- The rows of the similarity table whose seed `track_id` matches (the
boolean-mask filter in `get_similar_tracks`). -/
def similar_matches (e : RecommendationEngine) (track_id : String) :
    List SimilarTrackEdge :=
  e.similar_tracks.filter (fun row => row.track_id == track_id)

/-- `RecommendationEngine.get_similar_tracks`: for each seed track in caller
order, append the top `n_per_track` similar track ids by similarity score
descending; an empty seed list returns an empty list at once. -/
def get_similar_tracks (e : RecommendationEngine) (track_ids : List String)
    (n_per_track : Int) : List String :=
  if track_ids = [] then []
  else
    track_ids.foldl
      (fun similar_list track_id =>
        let track_similar :=
          sort_values_desc (fun row => row.similarity_score) (similar_matches e track_id)
        if track_similar.length > 0 then
          similar_list ++
            (pyTake n_per_track track_similar).map (fun row => row.similar_track_id)
        else similar_list)
      []

/-- The contribution of one seed track inside `get_similar_tracks` (the loop
body; the `len > 0` guard is dropped because a seed without matching rows
contributes the empty list either way). -/
def similar_for_seed (e : RecommendationEngine) (track_id : String)
    (n_per_track : Int) : List String :=
  (pyTake n_per_track
      (sort_values_desc (fun row => row.similarity_score) (similar_matches e track_id))).map
    (fun row => row.similar_track_id)

/-- `RecommendationEngine.get_top_popular`: the first `n` rows of the
popularity table in stored order. -/
def get_top_popular (e : RecommendationEngine) (n : Int) : List String :=
  (pyTake n e.top_popular).map (fun row => row.track_id)

/-- The deduplication loop of `mix_recommendations`: walk the list with a
`seen` set (modelled as the list of already kept ids), keeping only first
occurrences. -/
def dedup_loop (seen : List String) : List String → List String
  | [] => []
  | track :: rest =>
    if track ∈ seen then dedup_loop seen rest
    else track :: dedup_loop (track :: seen) rest

/-- Keeping only the first occurrence of every element: each kept element
erases its later duplicates.  This is the specification-side description of
the deduplication step. -/
def keep_first_occurrences : List String → List String
  | [] => []
  | x :: xs => x :: keep_first_occurrences (xs.filter (fun y => y ≠ x))
termination_by l => l.length
decreasing_by
  simp only [List.length_cons]
  exact Nat.lt_succ_of_le (List.length_filter_le _ _)

/-- The four strategy labels as a function of (online history non-empty,
personal result non-empty): the decision table of the spec. -/
def strategy_table (history_nonempty personal_nonempty : Bool) : String :=
  match history_nonempty, personal_nonempty with
  | true, true => "online_history + personal"
  | true, false => "online_history + top_popular"
  | false, true => "personal_only"
  | false, false => "top_popular_only"

/-- `RecommendationEngine.mix_recommendations`: blend personal, online-similar
and popularity candidates in priority order, deduplicate keeping first
occurrences, drop tracks of the online history, truncate to
`n_recommendations`, and label the strategy. -/
def mix_recommendations (e : RecommendationEngine) (user_id : String)
    (online_history : List String) (n_recommendations : Int) :
    List String × String :=
  let personal := get_personal_recommendations e user_id n_recommendations
  let similar_online := get_similar_tracks e online_history 2
  let top_popular := get_top_popular e (n_recommendations * 2)
  let all_recommendations := personal
  let all_recommendations :=
    if online_history ≠ [] then all_recommendations ++ similar_online
    else all_recommendations
  let all_recommendations :=
    if (all_recommendations.length : Int) < n_recommendations then
      all_recommendations ++
        top_popular.filter (fun track => track ∉ all_recommendations)
    else all_recommendations
  let unique_recommendations := dedup_loop [] all_recommendations
  let final_recommendations :=
    unique_recommendations.filter (fun track => track ∉ online_history)
  let strategy :=
    if online_history ≠ [] ∧ personal ≠ [] then "online_history + personal"
    else if online_history ≠ [] then "online_history + top_popular"
    else if personal ≠ [] then "personal_only"
    else "top_popular_only"
  (pyTake n_recommendations final_recommendations, strategy)

/-- `get_personal_recommendations` as a state transformer on the engine: the
method body reads the tables and assigns to no field, so the outgoing engine
state is the incoming one. -/
def get_personal_recommendations_call (e : RecommendationEngine)
    (user_id : String) (n : Int) : List String × RecommendationEngine :=
  (get_personal_recommendations e user_id n, e)

/-- `get_similar_tracks` as a state transformer on the engine (no field is
assigned in the method body). -/
def get_similar_tracks_call (e : RecommendationEngine) (track_ids : List String)
    (n_per_track : Int) : List String × RecommendationEngine :=
  (get_similar_tracks e track_ids n_per_track, e)

/-- `get_top_popular` as a state transformer on the engine (no field is
assigned in the method body). -/
def get_top_popular_call (e : RecommendationEngine) (n : Int) :
    List String × RecommendationEngine :=
  (get_top_popular e n, e)

/-- `mix_recommendations` as a state transformer on the engine (no field is
assigned in the method body). -/
def mix_recommendations_call (e : RecommendationEngine) (user_id : String)
    (online_history : List String) (n_recommendations : Int) :
    (List String × String) × RecommendationEngine :=
  (mix_recommendations e user_id online_history n_recommendations, e)

/-- A small populated engine: one personal row for user `u`, one similarity
edge out of `h`, one popular track. -/
def sampleEngine : RecommendationEngine :=
  { personal_recs := [⟨"u", "a", 2⟩]
    similar_tracks := [⟨"h", "b", 3⟩]
    top_popular := [⟨"p", 1⟩] }

/-- An engine whose similarity table yields two candidates for seed `h`. -/
def negativeCountEngine : RecommendationEngine :=
  { personal_recs := []
    similar_tracks := [⟨"h", "a", 2⟩, ⟨"h", "b", 1⟩]
    top_popular := [] }

/-- An engine with an empty personal table, an empty similarity table, and a
three-row popularity table headed by `h1`, `h2`. -/
def popularityGateEngine : RecommendationEngine :=
  { personal_recs := []
    similar_tracks := []
    top_popular := [⟨"h1", 3⟩, ⟨"h2", 2⟩, ⟨"p", 1⟩] }

/-- An engine where user `u`'s only personal recommendation is the track `h1`
of their online history, while the popularity table still has material. -/
def historyOnlyEngine : RecommendationEngine :=
  { personal_recs := [⟨"u", "h1", 1⟩]
    similar_tracks := []
    top_popular := [⟨"p1", 2⟩, ⟨"p2", 1⟩] }

example : mix_recommendations sampleEngine "u" ["h"] 5 =
    (["a", "b", "p"], "online_history + personal") := by decide

example : mix_recommendations negativeCountEngine "u" ["h"] (-1) =
    (["a"], "online_history + top_popular") := by decide

example : mix_recommendations popularityGateEngine "u" ["h1", "h2"] 1 =
    ([], "online_history + top_popular") := by decide

example : mix_recommendations historyOnlyEngine "u" ["h1"] 1 =
    ([], "online_history + personal") := by decide

theorem pyTake_sublist (n : Int) (xs : List α) : pyTake n xs <+ xs := by
  unfold pyTake
  split <;> exact List.take_sublist _ _

theorem length_pyTake_le {n : Int} (xs : List α) (h : 0 ≤ n) :
    ((pyTake n xs).length : Int) ≤ n := by
  unfold pyTake
  rw [if_pos h, List.length_take]
  calc ((min n.toNat xs.length : Nat) : Int) ≤ (n.toNat : Int) := by
        exact_mod_cast Nat.min_le_left _ _
    _ = n := Int.toNat_of_nonneg h

theorem pyTake_of_length_le {n : Int} (xs : List α) (h : (xs.length : Int) ≤ n) :
    pyTake n xs = xs := by
  have h0 : 0 ≤ n := le_trans (Int.ofNat_nonneg _) h
  unfold pyTake
  rw [if_pos h0]
  apply List.take_of_length_le
  have := Int.toNat_le_toNat h
  simpa using this

theorem pyTake_nil (n : Int) : pyTake n ([] : List α) = [] := by
  unfold pyTake
  split <;> simp

theorem dedup_loop_sublist (l : List String) : ∀ seen, dedup_loop seen l <+ l := by
  induction l with
  | nil => intro seen; simp [dedup_loop]
  | cons x xs ih =>
    intro seen
    rw [dedup_loop]
    split
    · exact (ih seen).cons x
    · exact (ih (x :: seen)).cons₂ x

theorem mem_dedup_loop_not_mem_seen {x : String} :
    ∀ (l seen : List String), x ∈ dedup_loop seen l → x ∉ seen := by
  intro l
  induction l with
  | nil => intro seen h; simp [dedup_loop] at h
  | cons y ys ih =>
    intro seen h
    rw [dedup_loop] at h
    split at h
    · exact ih seen h
    · rcases List.mem_cons.1 h with rfl | hmem
      · assumption
      · intro hx
        exact ih (y :: seen) hmem (List.mem_cons_of_mem _ hx)

theorem dedup_loop_nodup : ∀ (l seen : List String), (dedup_loop seen l).Nodup := by
  intro l
  induction l with
  | nil => intro seen; simp [dedup_loop]
  | cons y ys ih =>
    intro seen
    rw [dedup_loop]
    split
    · exact ih seen
    · refine List.nodup_cons.2 ⟨fun hmem => ?_, ih (y :: seen)⟩
      exact mem_dedup_loop_not_mem_seen ys (y :: seen) hmem (List.mem_cons_self y seen)

theorem keep_first_nil : keep_first_occurrences [] = [] := by
  simp [keep_first_occurrences]

theorem keep_first_cons (x : String) (xs : List String) :
    keep_first_occurrences (x :: xs) =
      x :: keep_first_occurrences (xs.filter (fun y => y ≠ x)) := by
  simp [keep_first_occurrences]

theorem dedup_loop_eq_keep_first :
    ∀ (l seen : List String),
      dedup_loop seen l = keep_first_occurrences (l.filter (fun y => y ∉ seen)) := by
  intro l
  induction l with
  | nil => intro seen; simp [dedup_loop, keep_first_nil]
  | cons x xs ih =>
    intro seen
    rw [dedup_loop]
    by_cases hx : x ∈ seen
    · have hfil : List.filter (fun y => decide (y ∉ seen)) (x :: xs) =
          List.filter (fun y => decide (y ∉ seen)) xs := by
        rw [List.filter_cons]
        simp [hx]
      rw [if_pos hx, hfil]
      exact ih seen
    · have hfil : List.filter (fun y => decide (y ∉ seen)) (x :: xs) =
          x :: List.filter (fun y => decide (y ∉ seen)) xs := by
        rw [List.filter_cons]
        simp [hx]
      have harg : List.filter (fun y => decide (y ∉ x :: seen)) xs =
          List.filter (fun a => decide (a ≠ x) && decide (a ∉ seen)) xs := by
        apply List.filter_congr
        intro a _
        by_cases h1 : a = x <;> by_cases h2 : a ∈ seen <;>
          simp [h1, h2, List.mem_cons]
      rw [if_neg hx, hfil, keep_first_cons, ih (x :: seen), List.filter_filter, harg]

theorem foldl_append_eq_flatten (g : String → List String) :
    ∀ (ids : List String) (init : List String),
      ids.foldl (fun acc id => acc ++ g id) init = init ++ (ids.map g).flatten := by
  intro ids
  induction ids with
  | nil => intro init; simp
  | cons i is ih => intro init; simp [ih, List.append_assoc]

theorem get_similar_tracks_eq_flatten (e : RecommendationEngine) (ids : List String)
    (npt : Int) :
    get_similar_tracks e ids npt =
      (ids.map (fun id => similar_for_seed e id npt)).flatten := by
  unfold get_similar_tracks
  split
  · rename_i hnil
    subst hnil
    simp
  · have hstep :
        (fun (similar_list : List String) (track_id : String) =>
          let track_similar :=
            sort_values_desc (fun row => row.similarity_score) (similar_matches e track_id)
          if track_similar.length > 0 then
            similar_list ++
              (pyTake npt track_similar).map (fun row => row.similar_track_id)
          else similar_list) =
        fun acc id => acc ++ similar_for_seed e id npt := by
      funext acc id
      simp only [similar_for_seed]
      split
      · rfl
      · rename_i hlen
        have hempty :
            sort_values_desc (fun row => row.similarity_score) (similar_matches e id) = [] :=
          List.length_eq_zero.1 (Nat.eq_zero_of_not_pos hlen)
        rw [hempty, pyTake_nil]
        simp
    rw [hstep, foldl_append_eq_flatten]
    simp

theorem length_pyTake_le_toNat {n : Int} (xs : List α) (h : 0 ≤ n) :
    (pyTake n xs).length ≤ n.toNat := by
  unfold pyTake
  rw [if_pos h, List.length_take]
  exact Nat.min_le_left _ _

/-- C1: the strategy label returned by `mix_recommendations` is exactly the
decision-table function of the pair (online history non-empty, personal
result non-empty), independent of the final list contents. -/
theorem mix_strategy_label (e : RecommendationEngine) (user_id : String)
    (online_history : List String) (n : Int) :
    (mix_recommendations e user_id online_history n).2 =
      strategy_table (!online_history.isEmpty)
        (!(get_personal_recommendations e user_id n).isEmpty) := by
  cases online_history <;>
    cases hp : get_personal_recommendations e user_id n <;>
      simp [mix_recommendations, strategy_table, hp]

/-- C2 (amended): for every nonnegative `n_recommendations` the returned list
has at most `n_recommendations` entries (so `n_recommendations = 0` gives an
empty list); negative values do not obey the length bound. -/
theorem mix_length_bound (e : RecommendationEngine) (user_id : String)
    (online_history : List String) (n : Int) (h : 0 ≤ n) :
    ((mix_recommendations e user_id online_history n).1.length : Int) ≤ n := by
  simp only [mix_recommendations]
  exact length_pyTake_le _ h

/-- C2 amended witness at a concrete input. -/
theorem mix_length_bound_witness :
    (0 : Int) ≤ 5 ∧
      ((mix_recommendations sampleEngine "u" ["h"] 5).1.length : Int) ≤ 5 :=
  ⟨by decide, mix_length_bound sampleEngine "u" ["h"] 5 (by decide)⟩

/-- C2 counterexample: with `n_recommendations = -1` the Python slice
`final_recommendations[:-1]` keeps all but the last candidate, so the result
is non-empty and its length is not at most `n_recommendations`. -/
theorem mix_length_counterexample :
    ¬ ((mix_recommendations negativeCountEngine "u" ["h"] (-1)).1.length : Int) ≤ -1 := by
  decide

/-- C3: no returned track id is an element of the online history. -/
theorem mix_no_history_leakage (e : RecommendationEngine) (user_id : String)
    (online_history : List String) (n : Int) (x : String)
    (hx : x ∈ (mix_recommendations e user_id online_history n).1) :
    x ∉ online_history := by
  simp only [mix_recommendations] at hx
  have hx' := (pyTake_sublist _ _).subset hx
  have hdec := List.of_mem_filter hx'
  simpa using hdec

/-- C3 witness at a concrete input. -/
theorem mix_no_history_leakage_witness :
    "a" ∈ (mix_recommendations sampleEngine "u" ["h"] 5).1 ∧
      "a" ∉ (["h"] : List String) :=
  ⟨by decide, mix_no_history_leakage sampleEngine "u" ["h"] 5 "a" (by decide)⟩

/-- C4: the final list of `mix_recommendations` has pairwise-distinct entries,
and the deduplication pass keeps exactly the first occurrence of every
duplicated candidate (each kept element erases its later duplicates). -/
theorem mix_nodup_keeps_first_occurrences :
    (∀ (e : RecommendationEngine) (u : String) (h : List String) (n : Int),
        (mix_recommendations e u h n).1.Nodup) ∧
      ∀ l : List String, dedup_loop [] l = keep_first_occurrences l := by
  constructor
  · intro e u h n
    simp only [mix_recommendations]
    exact ((dedup_loop_nodup _ _).filter _).sublist (pyTake_sublist _ _)
  · intro l
    rw [dedup_loop_eq_keep_first]
    congr 1
    apply List.filter_eq_self.2
    intro a _
    simp

/-- C7: `get_similar_tracks` is the per-seed concatenation of the top
`n_per_track` contributions in caller-supplied seed order (a seed without
matches, or an empty seed list, contributes nothing and nothing is
short-circuited), and the result length is at most
`len(track_ids) * n_per_track`. -/
theorem get_similar_tracks_per_seed (e : RecommendationEngine)
    (track_ids : List String) (npt : Int) (h : 0 ≤ npt) :
    get_similar_tracks e track_ids npt =
        (track_ids.map (fun id => similar_for_seed e id npt)).flatten ∧
      (get_similar_tracks e track_ids npt).length ≤ track_ids.length * npt.toNat := by
  refine ⟨get_similar_tracks_eq_flatten e track_ids npt, ?_⟩
  rw [get_similar_tracks_eq_flatten]
  have hbound : ∀ id, (similar_for_seed e id npt).length ≤ npt.toNat := by
    intro id
    unfold similar_for_seed
    rw [List.length_map]
    exact length_pyTake_le_toNat _ h
  induction track_ids with
  | nil => simp
  | cons i is ih =>
    simp only [List.map_cons, List.flatten_cons, List.length_append, List.length_cons]
    calc (similar_for_seed e i npt).length +
          ((is.map (fun id => similar_for_seed e id npt)).flatten).length
        ≤ npt.toNat + is.length * npt.toNat := Nat.add_le_add (hbound i) ih
      _ = (is.length + 1) * npt.toNat := by ring

/-- C7 witness at a concrete input. -/
theorem get_similar_tracks_per_seed_witness :
    (0 : Int) ≤ 2 ∧
      get_similar_tracks sampleEngine ["h"] 2 =
        ((["h"] : List String).map (fun id => similar_for_seed sampleEngine id 2)).flatten ∧
      (get_similar_tracks sampleEngine ["h"] 2).length ≤
        (["h"] : List String).length * (2 : Int).toNat :=
  ⟨by decide, (get_similar_tracks_per_seed sampleEngine ["h"] 2 (by decide)).1,
    (get_similar_tracks_per_seed sampleEngine ["h"] 2 (by decide)).2⟩

theorem get_top_popular_sublist (e : RecommendationEngine) (m : Int) :
    get_top_popular e m <+ e.top_popular.map (fun r => r.track_id) := by
  unfold get_top_popular
  exact (pyTake_sublist _ _).map _

/-- C5 counterexample: the personal and similar-online results are empty and
the popularity table holds at least `n = 1` rows outside the online history,
but the fetched pool is only the first `2 * n` rows, which all lie in the
history, so the result is empty instead of holding one entry. -/
theorem mix_fallback_counterexample :
    get_personal_recommendations popularityGateEngine "u" 1 = [] ∧
      get_similar_tracks popularityGateEngine ["h1", "h2"] 2 = [] ∧
      1 ≤ ((popularityGateEngine.top_popular.map (fun r => r.track_id)).filter
          (fun t => t ∉ (["h1", "h2"] : List String))).length ∧
      (mix_recommendations popularityGateEngine "u" ["h1", "h2"] 1).1.length ≠ 1 := by
  decide

/-- C5 (amended): if the personal result and the similar-online result are
both empty and the fetched popularity pool — the first `2 * n` rows — still
contains at least `n` distinct track ids outside the online history, then the
result has exactly `n` entries, in popularity-table order. -/
theorem mix_fallback_completeness (e : RecommendationEngine) (u : String)
    (h : List String) (n : Int) (hn : 0 ≤ n)
    (hper : get_personal_recommendations e u n = [])
    (hsim : get_similar_tracks e h 2 = [])
    (hpool : n.toNat ≤
      ((dedup_loop [] (get_top_popular e (n * 2))).filter
        (fun track => track ∉ h)).length) :
    (mix_recommendations e u h n).1.length = n.toNat ∧
      (mix_recommendations e u h n).1 <+ e.top_popular.map (fun r => r.track_id) := by
  by_cases h0 : (0 : Int) < n
  · have hres : (mix_recommendations e u h n).1 =
        pyTake n ((dedup_loop [] (get_top_popular e (n * 2))).filter
          (fun track => track ∉ h)) := by
      simp only [mix_recommendations, hper, hsim]
      simp [h0]
    rw [hres]
    constructor
    · unfold pyTake
      rw [if_pos hn, List.length_take]
      exact Nat.min_eq_left hpool
    · exact (pyTake_sublist _ _).trans ((List.filter_sublist _).trans
        ((dedup_loop_sublist _ _).trans (get_top_popular_sublist e (n * 2))))
  · have hn0 : n = 0 := le_antisymm (not_lt.1 h0) hn
    subst hn0
    have hres : (mix_recommendations e u h 0).1 = [] := by
      simp only [mix_recommendations, hper, hsim]
      simp [dedup_loop, pyTake]
    rw [hres]
    exact ⟨rfl, List.nil_sublist _⟩

/-- C5 amended witness at a concrete input. -/
theorem mix_fallback_completeness_witness :
    get_personal_recommendations popularityGateEngine "u" 1 = [] ∧
      get_similar_tracks popularityGateEngine ["h1"] 2 = [] ∧
      (1 : Int).toNat ≤
        ((dedup_loop [] (get_top_popular popularityGateEngine (1 * 2))).filter
          (fun track => track ∉ (["h1"] : List String))).length ∧
      (mix_recommendations popularityGateEngine "u" ["h1"] 1).1.length =
          (1 : Int).toNat ∧
      (mix_recommendations popularityGateEngine "u" ["h1"] 1).1 <+
        popularityGateEngine.top_popular.map (fun r => r.track_id) :=
  ⟨by decide, by decide, by decide,
    (mix_fallback_completeness popularityGateEngine "u" ["h1"] 1 (by decide)
      (by decide) (by decide) (by decide)).1,
    (mix_fallback_completeness popularityGateEngine "u" ["h1"] 1 (by decide)
      (by decide) (by decide) (by decide)).2⟩

/-- C8: `mix_recommendations` is deterministic — identical inputs over
identical table snapshots give identical (list, strategy) pairs. -/
theorem mix_deterministic (e e' : RecommendationEngine) (u u' : String)
    (h h' : List String) (n n' : Int)
    (he : e = e') (hu : u = u') (hh : h = h') (hn : n = n') :
    mix_recommendations e u h n = mix_recommendations e' u' h' n' := by
  subst he hu hh hn
  rfl

/-- C8 witness at a concrete input. -/
theorem mix_deterministic_witness :
    sampleEngine = sampleEngine ∧
      mix_recommendations sampleEngine "u" ["h"] 5 =
        mix_recommendations sampleEngine "u" ["h"] 5 :=
  ⟨rfl, mix_deterministic sampleEngine sampleEngine "u" "u" ["h"] ["h"] 5 5
    rfl rfl rfl rfl⟩

/-- C9: none of the engine's operations mutates the lookup tables: each call,
viewed as a state transformer on the engine, returns the table state it
received (the method bodies assign to no field). -/
theorem engine_tables_unchanged (e : RecommendationEngine) (u : String)
    (h ids : List String) (n npt m : Int) :
    (get_personal_recommendations_call e u n).2 = e ∧
      (get_similar_tracks_call e ids npt).2 = e ∧
      (get_top_popular_call e m).2 = e ∧
      (mix_recommendations_call e u h n).2 = e :=
  ⟨rfl, rfl, rfl, rfl⟩

/-- C10: the popularity fallback is gated on the candidate count measured
before deduplication and history exclusion: here the user's sole personal
recommendation is exactly the history track `h1`, the popularity table holds
at least one track outside the history, and `mix` still returns an empty
list. -/
theorem mix_fallback_gate_counted_before_filtering :
    get_personal_recommendations historyOnlyEngine "u" 1 = ["h1"] ∧
      (get_personal_recommendations historyOnlyEngine "u" 1).filter
          (fun t => t ∉ (["h1"] : List String)) = [] ∧
      1 ≤ ((historyOnlyEngine.top_popular.map (fun r => r.track_id)).filter
          (fun t => t ∉ (["h1"] : List String))).length ∧
      (mix_recommendations historyOnlyEngine "u" ["h1"] 1).1 = [] := by
  decide
